import Mathlib

/-!
Verification development for the RTSP camera discovery engine
(source file rtsp_gui_dashboard_pro_ar.py).

Python strings are modelled as lists of characters (abbrev Str), Python
dicts of headers as association lists, machine I/O (TCP reachability,
RTSP fingerprinting, stream validation) as explicit oracle functions
passed to the engine, so that every source function becomes a pure,
executable Lean definition.
-/

set_option autoImplicit false

namespace RTSP

/-- Python strings, modelled as lists of characters. -/
abbrev Str := List Char

/-- Python header dictionaries, modelled as association lists
(insertion order preserved, keys unique by construction). -/
abbrev Headers := List (Str × Str)

/-- Does the list start with the given pattern?  Used to model Python
substring containment. -/
def strStarts : Str → Str → Bool
  | [], _ => true
  | _ :: _, [] => false
  | c :: cs, d :: ds => c == d && strStarts cs ds

/-- Python substring containment: needle occurs contiguously in hay
(the empty needle always occurs).  Models the Python operator (token in text). -/
def strContains (needle : Str) (hay : Str) : Bool :=
  match hay with
  | [] => strStarts needle []
  | _ :: t => strStarts needle ([] : Str) || (strStarts needle hay || strContains needle t)

/-- Python str.lower, restricted to the character-wise lowering that
the ASCII vendor tokens exercise. -/
def lowerStr (s : Str) : Str := s.map Char.toLower

/-- Python dict.get k with default empty string, as used by detect_vendor. -/
def hget (h : Headers) (k : Str) : Str :=
  match h.find? (fun kv => kv.1 == k) with
  | some kv => kv.2
  | none => []

/-- One vendor entry of VENDOR_DB.  The Python key "match" is renamed
to tokens (match is a Lean keyword). -/
structure VendorInfo where
  tokens : List Str
  paths : List Str
  ports : List Nat
  defaults : List (Str × Str)
deriving Repr, DecidableEq

/-- The generic fallback profile (entry "generic" of VENDOR_DB). -/
def genericInfo : VendorInfo :=
  { tokens := []
  , paths := ["".toList, "live".toList, "live.sdp".toList, "h264".toList, "h265".toList,
      "stream".toList, "stream1".toList, "stream2".toList, "0".toList, "1".toList,
      "video".toList, "video.mp4".toList, "unicast".toList]
  , ports := [554, 8554]
  , defaults := [("admin".toList, "admin".toList), ("admin".toList, "12345".toList),
      ("admin".toList, "".toList), ("user".toList, "user".toList)] }

/-- VENDOR_DB, in source insertion order (Python dicts iterate in
insertion order). -/
def VENDOR_DB : List (Str × VendorInfo) :=
  [ ("hikvision".toList,
     { tokens := ["hikvision".toList]
     , paths := ["Streaming/Channels/101".toList, "Streaming/Channels/102".toList,
         "h264Preview_01_main".toList, "h264Preview_01_sub".toList]
     , ports := [554, 10554]
     , defaults := [("admin".toList, "12345".toList), ("admin".toList, "admin".toList),
         ("admin".toList, "".toList)] })
  , ("dahua".toList,
     { tokens := ["dahua".toList, "general".toList]
     , paths := ["cam/realmonitor?channel=1&subtype=0".toList,
         "cam/realmonitor?channel=1&subtype=1".toList]
     , ports := [554]
     , defaults := [("admin".toList, "admin".toList), ("admin".toList, "".toList)] })
  , ("axis".toList,
     { tokens := ["axis".toList]
     , paths := ["axis-media/media.amp".toList, "axis-media/media.amp?videocodec=h264".toList]
     , ports := [554]
     , defaults := [("root".toList, "pass".toList), ("root".toList, "root".toList),
         ("root".toList, "".toList)] })
  , ("reolink".toList,
     { tokens := ["reolink".toList]
     , paths := ["Preview_01_main".toList, "Preview_01_sub".toList,
         "h264Preview_01_main".toList, "h264Preview_01_sub".toList]
     , ports := [554]
     , defaults := [("admin".toList, "".toList)] })
  , ("uniview".toList,
     { tokens := ["uniview".toList, "unv".toList, "uv".toList]
     , paths := ["media/video1".toList, "media/video2".toList, "media/video3".toList]
     , ports := [554]
     , defaults := [("admin".toList, "123456".toList), ("admin".toList, "".toList)] })
  , ("amcrest".toList,
     { tokens := ["amcrest".toList]
     , paths := ["cam/realmonitor?channel=1&subtype=0".toList,
         "cam/realmonitor?channel=1&subtype=1".toList,
         "h264Preview_01_main".toList, "h264Preview_01_sub".toList]
     , ports := [554]
     , defaults := [("admin".toList, "admin".toList), ("admin".toList, "".toList)] })
  , ("foscam".toList,
     { tokens := ["foscam".toList]
     , paths := ["videoMain".toList, "videoSub".toList]
     , ports := [88, 554]
     , defaults := [("admin".toList, "".toList), ("user".toList, "user".toList)] })
  , ("tapo".toList,
     { tokens := ["tapo".toList]
     , paths := ["stream1".toList, "stream2".toList, "stream6".toList, "stream7".toList]
     , ports := [554]
     , defaults := [] })
  , ("hanwha".toList,
     { tokens := ["hanwha".toList, "wisenet".toList, "samsung".toList]
     , paths := ["profile1/media.smp".toList, "profile2/media.smp".toList]
     , ports := [554]
     , defaults := [("admin".toList, "111111".toList), ("admin".toList, "4321".toList),
         ("admin".toList, "".toList)] })
  , ("bosch".toList,
     { tokens := ["bosch".toList]
     , paths := ["".toList, "video?inst=1".toList, "video?inst=2".toList,
         "?inst=1".toList, "?inst=2".toList]
     , ports := [554]
     , defaults := [("admin".toList, "admin".toList), ("admin".toList, "".toList)] })
  , ("unifi_protect".toList,
     { tokens := ["unifi".toList, "ubiquiti".toList, "protect".toList]
     , paths := ["".toList]
     , ports := [7447]
     , defaults := [] })
  , ("generic".toList, genericInfo) ]

/-- The generic vendor id. -/
def genericId : Str := "generic".toList

/-- The three header names inspected by detect_vendor. -/
def serverKey : Str := "server".toList

/-- The www-authenticate header name. -/
def wwwAuthKey : Str := "www-authenticate".toList

/-- The proxy-authenticate header name. -/
def proxyAuthKey : Str := "proxy-authenticate".toList

/-- The fingerprint text inspected by detect_vendor: the values of the
server / www-authenticate / proxy-authenticate headers (missing keys
defaulting to the empty string) joined with single spaces, lower-cased.
Mirrors the first line of detect_vendor in the source. -/
def vendorText (h : Headers) : Str :=
  lowerStr (List.intercalate [' '] [hget h serverKey, hget h wwwAuthKey, hget h proxyAuthKey])

/-- The vendor-matching loop of detect_vendor, generalized over the
catalog list: return the first vendor whose token list has a member
occurring as a substring of the text; fall back to "generic". -/
def detectFrom : List (Str × VendorInfo) → Str → Str
  | [], _ => genericId
  | (v, info) :: rest, text =>
    if info.tokens.any (fun t => strContains t text) then v else detectFrom rest text

/-- detect_vendor from the source: match the fingerprint text against
VENDOR_DB in insertion order, defaulting to "generic". -/
def detect_vendor (h : Headers) : Str :=
  detectFrom VENDOR_DB (vendorText h)

/-- Decimal digit character (value below ten). -/
def digitChar (n : Nat) : Char := Char.ofNat (48 + n)

/-- Fuelled decimal rendering loop (the fuel is always sufficient at the
call site, it only makes the recursion structural). -/
def natToStrCore : Nat → Nat → Str → Str
  | 0, _, acc => acc
  | fuel + 1, n, acc =>
    let d := digitChar (n % 10)
    if n / 10 = 0 then d :: acc else natToStrCore fuel (n / 10) (d :: acc)

/-- Decimal rendering of a natural number, modelling the Python
formatting of the (nonnegative) port integer inside an f-string. -/
def natToStr (n : Nat) : Str := natToStrCore (n + 1) n []

/-- Python truthiness of an optional string (None and the empty string
are falsy); models the test (if user:) in build_urls. -/
def pyTruthy : Option Str → Bool
  | none => false
  | some s => !s.isEmpty

/-- The credential prefix of build_urls: user:pwd@ when the user is
truthy (the password defaulting to the empty string when None),
otherwise empty. -/
def authStr (user pwd : Option Str) : Str :=
  if pyTruthy user then (user.getD []) ++ [':'] ++ (pwd.getD []) ++ ['@'] else []

/-- One URL of build_urls: scheme, credential prefix, host ip:port and
the path candidate with all leading slashes stripped (Python
str.lstrip removes every leading occurrence), an empty stripped path
contributing no suffix.  In the source the auth and host parts are
computed once before the loop; build_urls below maps this function
over the path list, which is the same computation. -/
def build_url (ip : Str) (port : Nat) (user pwd : Option Str) (p : Str) : Str :=
  let q := p.dropWhile (fun c => c == '/')
  "rtsp://".toList ++ authStr user pwd ++ ip ++ [':'] ++ natToStr port
    ++ (if q.isEmpty then [] else '/' :: q)

/-- build_urls from the source: one URL per path candidate, in order. -/
def build_urls (ip : Str) (port : Nat) (user pwd : Option Str) (paths : List Str) : List Str :=
  paths.map (build_url ip port user pwd)

/-- Spec-side: build_urls as the specification sentence literally words
it, stripping exactly ONE leading separator from each path (the source
instead strips every leading separator).  Used only to compare the
spec's wording with the source behaviour. -/
def build_urls_spec_one_strip (ip : Str) (port : Nat) (user pwd : Option Str)
    (paths : List Str) : List Str :=
  paths.map (fun p =>
    let q : Str := match p with
      | '/' :: rest => rest
      | other => other
    "rtsp://".toList ++ authStr user pwd ++ ip ++ [':'] ++ natToStr port
      ++ (if q.isEmpty then [] else '/' :: q))

/-- Row / record status, exactly the three statuses a CameraRecord
takes in the source ("NEW" at registration, then SUCCESS or FAILED). -/
inductive Status where
  | NEW
  | SUCCESS
  | FAILED
deriving Repr, DecidableEq

export Status (NEW SUCCESS FAILED)

/-- The engine-facing fields of one row of Dashboard.rows (camera id and
the display-only latency field are omitted: no claim concerns them). -/
structure Row where
  ip : Str
  port : Nat
  user : Option Str
  pwd : Option Str
  vendor : Str
  path : Str
  status : Status
  url : Str
deriving Repr, DecidableEq

/-- The sentinel path setting meaning auto-detect. -/
def AUTO : Str := "__AUTO__".toList

/-- The tuple returned by Dashboard._smart_probe_single:
(status, url, vendor, elapsed_ms, path, (user, pwd, port)).  Elapsed
wall-clock time is real time and is not modelled; the credential triple
is flattened into the user / pwd / cport fields. -/
structure Outcome where
  status : Status
  url : Str
  vendor : Str
  path : Str
  user : Option Str
  pwd : Option Str
  cport : Nat
deriving Repr, DecidableEq

/-- VENDOR_DB.get(vendor, VENDOR_DB["generic"]) from the source. -/
def vendorLookup (v : Str) : VendorInfo :=
  match VENDOR_DB.find? (fun e => e.1 == v) with
  | some e => e.2
  | none => genericInfo

/-- The candidate-port accumulation loop of _smart_probe_single: append
each port of the list to the accumulator unless already present.  Both
source for-loops (vendor ports, then generic ports) are instances of
this fold. -/
def add_new (acc : List Nat) : List Nat → List Nat
  | [] => acc
  | p :: ps => add_new (if p ∈ acc then acc else acc ++ [p]) ps

/-- candidate_ports of _smart_probe_single: the hinted base port, then
the vendor ports not already present, then the generic ports not
already present. -/
def candidate_ports (base_port : Nat) (vinfo : VendorInfo) : List Nat :=
  add_new (add_new [base_port] vinfo.ports) genericInfo.ports

/-- Spec-side: keep the first occurrence of every element, drop later
duplicates (order preserved).  Used to state the candidate-port claim. -/
def first_occ_dedup (l : List Nat) : List Nat := add_new [] l

/-- int(r.get("port") or 554): a zero/absent port hint falls back to
554 (Python treats 0 as falsy). -/
def probe_base_port (r : Row) : Nat := if r.port = 0 then 554 else r.port

/-- The vendor resolved by a probe run: detect_vendor over the single
fingerprint fetched at the base port (the fingerprint oracle stands for
_rtsp_headers_safe). -/
def probe_vendor (fingerprint : Str → Nat → Headers) (r : Row) : Str :=
  detect_vendor (fingerprint r.ip (probe_base_port r))

/-- vendor_info of the probe run. -/
def probe_vinfo (fingerprint : Str → Nat → Headers) (r : Row) : VendorInfo :=
  vendorLookup (probe_vendor fingerprint r)

/-- The candidate path list of the probe run: the explicit path setting
alone when it is not the auto sentinel, otherwise the vendor paths
(falling back to the generic paths when the vendor list is empty,
mirroring the Python or-expression on lists). -/
def probe_paths (fingerprint : Str → Nat → Headers) (r : Row) : List Str :=
  if r.path = AUTO then
    (if (probe_vinfo fingerprint r).paths.isEmpty then genericInfo.paths
     else (probe_vinfo fingerprint r).paths)
  else [r.path]

/-- The candidate port list of the probe run. -/
def probe_ports (fingerprint : Str → Nat → Headers) (r : Row) : List Nat :=
  candidate_ports (probe_base_port r) (probe_vinfo fingerprint r)

/-- A successful hit inside the probe loop: the validated URL together
with the path, credentials and port that produced it. -/
structure Hit where
  url : Str
  path : Str
  user : Option Str
  pwd : Option Str
  port : Nat
deriving Repr, DecidableEq

/-- The inner path loop of _smart_probe_single: zip the candidate paths
with their built URLs and return the first pair the validator accepts
(the validate oracle stands for quick_open). -/
def try_paths (validate : Str → Bool) (ip : Str) (user pwd : Option Str) (port : Nat) :
    List Str → Option (Str × Str)
  | [] => none
  | p :: ps =>
    let url := build_url ip port user pwd p
    if validate url then some (p, url) else try_paths validate ip user pwd port ps

/-- The default-credential loop of _smart_probe_single: for each
(capped) default pair rerun the path loop with those credentials. -/
def try_default_creds (validate : Str → Bool) (ip : Str) (port : Nat) (paths : List Str) :
    List (Str × Str) → Option (Str × Str × Str × Str)
  | [] => none
  | (u, pw) :: rest =>
    match try_paths validate ip (some u) (some pw) port paths with
    | some (p, url) => some (u, pw, p, url)
    | none => try_default_creds validate ip port paths rest

/-- The outer port loop of _smart_probe_single: skip the port when the
connectivity probe (ping oracle, standing for ping_host) reports it
unreachable, otherwise try the hinted credentials over all paths and
then (with opt-in) up to the first three vendor default pairs. -/
def port_loop (ping : Str → Nat → Bool) (validate : Str → Bool) (tryDfl : Bool)
    (ip : Str) (user pwd : Option Str) (paths : List Str) (dflts : List (Str × Str)) :
    List Nat → Option Hit
  | [] => none
  | port :: rest =>
    if ping ip port then
      match try_paths validate ip user pwd port paths with
      | some (p, url) => some ⟨url, p, user, pwd, port⟩
      | none =>
        if tryDfl then
          match try_default_creds validate ip port paths (dflts.take 3) with
          | some (u, pw, p, url) => some ⟨url, p, some u, some pw, port⟩
          | none => port_loop ping validate tryDfl ip user pwd paths dflts rest
        else port_loop ping validate tryDfl ip user pwd paths dflts rest
    else port_loop ping validate tryDfl ip user pwd paths dflts rest

/-- Dashboard._smart_probe_single: fingerprint once at the base port,
resolve the vendor, build the candidate ports and paths, then run the
port loop; on a hit return SUCCESS with its url, path and credentials,
otherwise FAILED with an empty url, the first candidate path and the
input credential hints. -/
def smart_probe_single (ping : Str → Nat → Bool) (validate : Str → Bool)
    (fingerprint : Str → Nat → Headers) (tryDfl : Bool) (r : Row) : Outcome :=
  let vendor := probe_vendor fingerprint r
  let vinfo := probe_vinfo fingerprint r
  let paths := probe_paths fingerprint r
  match port_loop ping validate tryDfl r.ip r.user r.pwd paths vinfo.defaults
      (probe_ports fingerprint r) with
  | some h => ⟨SUCCESS, h.url, vendor, h.path, h.user, h.pwd, h.port⟩
  | none => ⟨FAILED, [], vendor, paths.headD [], r.user, r.pwd, probe_base_port r⟩

/-- One invocation of the Stream Validator during a probe run: the
credentials, port and path from which the validated URL was built. -/
structure Attempt where
  user : Option Str
  pwd : Option Str
  port : Nat
  path : Str
deriving Repr, DecidableEq

/-- The URL the validator is invoked on for a given attempt. -/
def attempt_url (ip : Str) (a : Attempt) : Str :=
  build_url ip a.port a.user a.pwd a.path

/-- try_paths instrumented with the list of validator invocations it
performs, in order (same control flow, extra trace component). -/
def try_paths_t (validate : Str → Bool) (ip : Str) (user pwd : Option Str) (port : Nat) :
    List Str → Option (Str × Str) × List Attempt
  | [] => (none, [])
  | p :: ps =>
    let url := build_url ip port user pwd p
    if validate url then (some (p, url), [⟨user, pwd, port, p⟩])
    else
      let rest := try_paths_t validate ip user pwd port ps
      (rest.1, ⟨user, pwd, port, p⟩ :: rest.2)

/-- try_default_creds instrumented with its validator invocations. -/
def try_default_creds_t (validate : Str → Bool) (ip : Str) (port : Nat) (paths : List Str) :
    List (Str × Str) → Option (Str × Str × Str × Str) × List Attempt
  | [] => (none, [])
  | (u, pw) :: rest =>
    match try_paths_t validate ip (some u) (some pw) port paths with
    | (some (p, url), tr) => (some (u, pw, p, url), tr)
    | (none, tr) =>
      let r := try_default_creds_t validate ip port paths rest
      (r.1, tr ++ r.2)

/-- port_loop instrumented with its validator invocations. -/
def port_loop_t (ping : Str → Nat → Bool) (validate : Str → Bool) (tryDfl : Bool)
    (ip : Str) (user pwd : Option Str) (paths : List Str) (dflts : List (Str × Str)) :
    List Nat → Option Hit × List Attempt
  | [] => (none, [])
  | port :: rest =>
    if ping ip port then
      match try_paths_t validate ip user pwd port paths with
      | (some (p, url), tr) => (some ⟨url, p, user, pwd, port⟩, tr)
      | (none, tr) =>
        if tryDfl then
          match try_default_creds_t validate ip port paths (dflts.take 3) with
          | (some (u, pw, p, url), tr2) => (some ⟨url, p, some u, some pw, port⟩, tr ++ tr2)
          | (none, tr2) =>
            let rr := port_loop_t ping validate tryDfl ip user pwd paths dflts rest
            (rr.1, tr ++ tr2 ++ rr.2)
        else
          let rr := port_loop_t ping validate tryDfl ip user pwd paths dflts rest
          (rr.1, tr ++ rr.2)
    else port_loop_t ping validate tryDfl ip user pwd paths dflts rest

/-- smart_probe_single instrumented with the ordered list of validator
invocations the run performs. -/
def smart_probe_t (ping : Str → Nat → Bool) (validate : Str → Bool)
    (fingerprint : Str → Nat → Headers) (tryDfl : Bool) (r : Row) : Outcome × List Attempt :=
  let vendor := probe_vendor fingerprint r
  let vinfo := probe_vinfo fingerprint r
  let paths := probe_paths fingerprint r
  match port_loop_t ping validate tryDfl r.ip r.user r.pwd paths vinfo.defaults
      (probe_ports fingerprint r) with
  | (some h, tr) => (⟨SUCCESS, h.url, vendor, h.path, h.user, h.pwd, h.port⟩, tr)
  | (none, tr) => (⟨FAILED, [], vendor, paths.headD [], r.user, r.pwd, probe_base_port r⟩, tr)

/-- Spec-side: the full ordered candidate space of one discovery run,
following the specification: for each candidate port in order, nothing
at all when the Connectivity Probe reports it unreachable, otherwise
every candidate path with the hinted credentials in path order,
followed (under the default-credential opt-in) by every candidate path
for each of the first three vendor default pairs. -/
def spec_candidates (ping : Str → Nat → Bool) (tryDfl : Bool) (ip : Str)
    (user pwd : Option Str) (paths : List Str) (dflts : List (Str × Str))
    (ports : List Nat) : List Attempt :=
  ports.flatMap fun port =>
    if ping ip port then
      paths.map (fun p => ⟨user, pwd, port, p⟩)
        ++ (if tryDfl then
              (dflts.take 3).flatMap (fun d => paths.map fun p => ⟨some d.1, some d.2, port, p⟩)
            else [])
    else []

/-- Spec-side: run the validator over a candidate list in order,
stopping at the first accepted candidate; returns the accepted
candidate (if any) and the list of candidates actually handed to the
validator. -/
def run_candidates (validate : Str → Bool) (ip : Str) :
    List Attempt → Option Attempt × List Attempt
  | [] => (none, [])
  | a :: rest =>
    if validate (attempt_url ip a) then (some a, [a])
    else
      let r := run_candidates validate ip rest
      (r.1, a :: r.2)

/-- Spec-side: the whole discovery run expressed over the candidate
space: first accepted candidate plus validator trace. -/
def spec_run (ping : Str → Nat → Bool) (validate : Str → Bool)
    (fingerprint : Str → Nat → Headers) (tryDfl : Bool) (r : Row) :
    Option Attempt × List Attempt :=
  run_candidates validate r.ip
    (spec_candidates ping tryDfl r.ip r.user r.pwd (probe_paths fingerprint r)
      (probe_vinfo fingerprint r).defaults (probe_ports fingerprint r))

/-- The result-application block of Dashboard._probe_ids: store status,
url and vendor into the row, overwrite the path only when the outcome
path is truthy (non-empty), and on SUCCESS store the port that worked
(the display-only latency column is not modelled). -/
def apply_outcome (r : Row) (o : Outcome) : Row :=
  let r1 := { r with status := o.status, url := o.url, vendor := o.vendor }
  let r2 := if o.path.isEmpty then r1 else { r1 with path := o.path }
  if o.status = SUCCESS then { r2 with port := o.cport } else r2

/-- One persisted cache entry (value of the IP-keyed cache mapping). -/
structure CacheEntry where
  vendor : Str
  path : Str
  user : Option Str
  pwd : Option Str
  port : Nat
deriving Repr, DecidableEq

/-- The per-IP row construction of Dashboard.on_add: when a cache entry
exists for the IP every starting hint (port, user, pwd, vendor, path)
is seeded from it, otherwise the UI hints are used with vendor
"unknown" and the auto path sentinel; status NEW, empty url. -/
def register_camera (hit : Option CacheEntry) (ip : Str) (uiPort : Nat)
    (uiUser uiPwd : Option Str) : Row :=
  match hit with
  | some e => ⟨ip, e.port, e.user, e.pwd, e.vendor, e.path, NEW, []⟩
  | none => ⟨ip, uiPort, uiUser, uiPwd, "unknown".toList, AUTO, NEW, []⟩

/-- The cache upsert performed by _probe_ids for a SUCCESS outcome. -/
def cache_entry_of (r : Row) (o : Outcome) : CacheEntry :=
  ⟨o.vendor, (apply_outcome r o).path, o.user, o.pwd, o.cport⟩

/-! ### Protocol Fingerprinter (rtsp_headers) -/

/-- Python str.strip (whitespace from both ends). -/
def pyStrip (s : Str) : Str :=
  ((s.dropWhile Char.isWhitespace).reverse.dropWhile Char.isWhitespace).reverse

/-- Split a decoded response on CRLF separators, exactly like the
Python split("\r\n"). -/
def splitCRLF : Str → List Str
  | [] => [[]]
  | '\r' :: '\n' :: rest => [] :: splitCRLF rest
  | c :: rest =>
    match splitCRLF rest with
    | [] => [[c]]
    | s :: ss => (c :: s) :: ss

/-- Split a line at its first colon (line.split(":", 1) when a colon is
present); none when the line has no colon. -/
def splitFirstColon : Str → Option (Str × Str)
  | [] => none
  | ':' :: rest => some ([], rest)
  | c :: rest =>
    match splitFirstColon rest with
    | some pr => some (c :: pr.1, pr.2)
    | none => none

/-- Python dict assignment headers[k] = v: overwrite in place when the
key exists, else append. -/
def dictSet (h : Headers) (k v : Str) : Headers :=
  if h.any (fun kv => kv.1 == k) then
    h.map (fun kv => if kv.1 == k then (k, v) else kv)
  else h ++ [(k, v)]

/-- The header-parsing loop of rtsp_headers over the lines after the
status line: stop at the first blank (stripped-empty) line; for each
line holding a colon, store stripped-lowered key to stripped value. -/
def parseHeaderLines : Headers → List Str → Headers
  | h, [] => h
  | h, line :: rest =>
    if (pyStrip line).isEmpty then h
    else
      match splitFirstColon line with
      | some (k, v) => parseHeaderLines (dictSet h (lowerStr (pyStrip k)) (pyStrip v)) rest
      | none => parseHeaderLines h rest

/-- Parse one decoded RTSP response buffer into a header mapping
(split on CRLF, skip the status line, parse up to the first blank). -/
def parseResponse (raw : Str) : Headers :=
  parseHeaderLines [] ((splitCRLF raw).drop 1)

/-- The network behaviour one rtsp_headers call observes: whether
connect and sendall succeed, and the decoded receive buffer (none when
recv raises; the decode step uses errors="ignore" and cannot raise). -/
structure NetEnv where
  connectOk : Bool
  sendOk : Bool
  recvData : Option Str
deriving Repr, DecidableEq

/-- rtsp_headers from the source, its socket calls replaced by the
NetEnv oracle.  The body runs under try/except Exception (failures
leave the header dict empty) and try/finally (the socket is closed on
every exit path); the Boolean component records that the close ran. -/
def rtsp_headers (env : NetEnv) : Headers × Bool :=
  let body : Except Unit Headers :=
    if !env.connectOk then .error ()
    else if !env.sendOk then .error ()
    else
      match env.recvData with
      | none => .error ()
      | some raw => .ok (parseResponse raw)
  match body with
  | .ok h => (h, true)
  | .error _ => ([], true)

/-! ### Concurrency Manager (Dashboard._probe_ids) -/

/-- The result of one submitted probe as the future of _probe_ids sees
it: either an outcome status, or the exception the probe raised (which
fut.result() re-raises). -/
abbrev ProbeResult := Except Unit Status

/-- The as_completed collection loop of _probe_ids, over the ids in
completion order: take each future's result — an uncaught exception
aborts the whole loop, since the source wraps fut.result() in no
try/except — and tally successes and failures. -/
def probe_collect (results : Nat → ProbeResult) :
    List Nat → Nat → Nat → Except Unit (Nat × Nat)
  | [], succ, fail => .ok (succ, fail)
  | cid :: rest, succ, fail =>
    match results cid with
    | .error e => .error e
    | .ok st =>
      if st = SUCCESS then probe_collect results rest (succ + 1) fail
      else probe_collect results rest succ (fail + 1)

/-- The aggregate result of Dashboard._probe_ids for a batch: the
(success, failure) counts when every probe returns, or the first
re-raised probe exception. -/
def probe_ids (results : Nat → ProbeResult) (completionOrder : List Nat) :
    Except Unit (Nat × Nat) :=
  probe_collect results completionOrder 0 0

/-! ### Remaining spec-side definitions -/

/-- Spec-side: the Vendor Detector contract as the specification words
it — the first vendor in catalog insertion order whose match-token set
has a token occurring as a substring of the fingerprint text, the
generic id when none matches. -/
def detect_vendor_spec (h : Headers) : Str :=
  match VENDOR_DB.find? (fun e => e.2.tokens.any (fun t => strContains t (vendorText h))) with
  | some e => e.1
  | none => genericId

/-- A URL with no path suffix at all (scheme, credentials, host). -/
def url_base (ip : Str) (port : Nat) (user pwd : Option Str) : Str :=
  "rtsp://".toList ++ authStr user pwd ++ ip ++ [':'] ++ natToStr port

/-- Spec-side: the outcome the specification prescribes for a given
first-accepted candidate — SUCCESS carrying the candidate's URL, path,
port and credentials, or FAILED with empty url, first candidate path
and the input hints. -/
def outcome_of_spec (fingerprint : Str → Nat → Headers) (r : Row)
    (res : Option Attempt) : Outcome :=
  match res with
  | some a =>
    ⟨SUCCESS, attempt_url r.ip a, probe_vendor fingerprint r, a.path, a.user, a.pwd, a.port⟩
  | none =>
    ⟨FAILED, [], probe_vendor fingerprint r, (probe_paths fingerprint r).headD [],
      r.user, r.pwd, probe_base_port r⟩

/-!
## Theorems

Helper lemmas first, then one theorem per claim (with witnesses and
counterexamples where the claim's status requires them).
-/

/-- The vendor-matching loop returns the first catalog entry whose
token set matches, falling back to the generic id: loop-to-find?
equivalence, for any catalog. -/
theorem detectFrom_eq_find (db : List (Str × VendorInfo)) (text : Str) :
    detectFrom db text
      = (match db.find? (fun e => e.2.tokens.any (fun t => strContains t text)) with
         | some e => e.1
         | none => genericId) := by
  induction db with
  | nil => rfl
  | cons hd tl ih =>
    rcases hd with ⟨v, info⟩
    cases h : info.tokens.any (fun t => strContains t text) <;>
      simp [detectFrom, List.find?_cons, h, ih]

/-- C7: detect_vendor concatenates the server and the two
authentication-challenge header values into one lower-cased string
(vendorText) and returns the first vendor in VENDOR_DB insertion order
with a match token occurring as a substring of it, falling back to the
generic vendor id when no token occurs. -/
theorem detect_vendor_first_match_c7 (h : Headers) :
    detect_vendor h = detect_vendor_spec h := by
  unfold detect_vendor detect_vendor_spec
  exact detectFrom_eq_find VENDOR_DB (vendorText h)

/-- C10: the Vendor Detector's result depends only on the server,
www-authenticate and proxy-authenticate values (missing keys read as
the empty string): two fingerprints agreeing there get the same vendor. -/
theorem detect_vendor_depends_only_on_keys_c10 (h1 h2 : Headers)
    (hs : hget h1 serverKey = hget h2 serverKey)
    (hw : hget h1 wwwAuthKey = hget h2 wwwAuthKey)
    (hx : hget h1 proxyAuthKey = hget h2 proxyAuthKey) :
    detect_vendor h1 = detect_vendor h2 := by
  unfold detect_vendor vendorText
  rw [hs, hw, hx]

/-- Witness for C10 at two concrete fingerprints that agree on the
three inspected keys but differ in their remaining headers. -/
theorem detect_vendor_depends_only_on_keys_c10_witness :
    hget [(serverKey, "AXIS 210".toList), ("x-extra".toList, "dahua".toList)] serverKey
        = hget [(serverKey, "AXIS 210".toList)] serverKey
      ∧ hget [(serverKey, "AXIS 210".toList), ("x-extra".toList, "dahua".toList)] wwwAuthKey
        = hget [(serverKey, "AXIS 210".toList)] wwwAuthKey
      ∧ hget [(serverKey, "AXIS 210".toList), ("x-extra".toList, "dahua".toList)] proxyAuthKey
        = hget [(serverKey, "AXIS 210".toList)] proxyAuthKey
      ∧ detect_vendor [(serverKey, "AXIS 210".toList), ("x-extra".toList, "dahua".toList)]
        = detect_vendor [(serverKey, "AXIS 210".toList)] :=
  ⟨by decide, by decide, by decide,
    detect_vendor_depends_only_on_keys_c10 _ _ (by decide) (by decide) (by decide)⟩

/-- C8: the Protocol Fingerprinter model is a total function of the
observed network behaviour (it never raises), the socket is closed on
every exit path, and a failure at any stage (connect, send, recv;
the ignore-mode decode cannot fail) yields the empty header mapping. -/
theorem rtsp_headers_safe_c8 (env : NetEnv) :
    (rtsp_headers env).2 = true
      ∧ (env.connectOk = false ∨ env.sendOk = false ∨ env.recvData = none →
          (rtsp_headers env).1 = []) := by
  rcases env with ⟨c, s, d⟩
  cases c <;> cases s <;> cases d <;> simp [rtsp_headers]

/-- Witness for C8 at a concrete failing environment (connect refused). -/
theorem rtsp_headers_safe_c8_witness :
    (rtsp_headers ⟨false, true, some "x".toList⟩).2 = true
      ∧ (rtsp_headers ⟨false, true, some "x".toList⟩).1 = [] :=
  ⟨(rtsp_headers_safe_c8 _).1, (rtsp_headers_safe_c8 _).2 (Or.inl rfl)⟩

/-- C2 (code bug evidence): a probe that raises aborts the whole batch
collection: the batch aggregate is the re-raised exception instead of
counts, both for a single-camera batch and for a batch where a second,
well-behaved camera then never gets counted. -/
theorem probe_ids_exception_aborts_batch_c2 :
    probe_ids (fun _ => .error ()) [1] = .error ()
      ∧ probe_ids (fun i => if i = 1 then .error () else .ok SUCCESS) [1, 2] = .error () :=
  ⟨rfl, rfl⟩

/-- When no probe raises, the collection loop does count every id:
success plus failure counts grow by exactly the number of ids. -/
theorem probe_collect_counts (results : Nat → ProbeResult)
    (hok : ∀ i, results i ≠ .error ()) :
    ∀ ids succ fail, ∃ s f, probe_collect results ids succ fail = .ok (s, f)
      ∧ s + f = succ + fail + ids.length := by
  intro ids
  induction ids with
  | nil => intro succ fail; exact ⟨succ, fail, rfl, by simp⟩
  | cons cid rest ih =>
    intro succ fail
    cases hr : results cid with
    | error e => cases e; exact absurd hr (hok cid)
    | ok st =>
      by_cases hst : st = SUCCESS
      · obtain ⟨s, f, h1, h2⟩ := ih (succ + 1) fail
        exact ⟨s, f, by simp [probe_collect, hr, hst, h1],
          by simp only [List.length_cons]; omega⟩
      · obtain ⟨s, f, h1, h2⟩ := ih succ (fail + 1)
        exact ⟨s, f, by simp [probe_collect, hr, hst, h1],
          by simp only [List.length_cons]; omega⟩

/-- The accumulation loop splits over list concatenation. -/
theorem add_new_append (l1 l2 : List Nat) :
    ∀ acc, add_new acc (l1 ++ l2) = add_new (add_new acc l1) l2 := by
  induction l1 with
  | nil => intro acc; rfl
  | cons p ps ih => intro acc; simp [add_new, ih]

/-- The accumulation loop only ever appends to its accumulator. -/
theorem add_new_eq_append (l : List Nat) :
    ∀ acc, ∃ t, add_new acc l = acc ++ t := by
  induction l with
  | nil => intro acc; exact ⟨[], by simp [add_new]⟩
  | cons p ps ih =>
    intro acc
    by_cases hp : p ∈ acc
    · obtain ⟨t, ht⟩ := ih acc
      exact ⟨t, by simp [add_new, hp, ht]⟩
    · obtain ⟨t, ht⟩ := ih (acc ++ [p])
      exact ⟨p :: t, by simp [add_new, hp, ht]⟩

/-- The accumulation loop preserves the no-duplicates property. -/
theorem add_new_nodup (l : List Nat) :
    ∀ acc : List Nat, acc.Nodup → (add_new acc l).Nodup := by
  induction l with
  | nil => intro acc h; exact h
  | cons p ps ih =>
    intro acc h
    by_cases hp : p ∈ acc
    · simpa [add_new, hp] using ih acc h
    · refine ?_
      have : (acc ++ [p]).Nodup := by simp [List.nodup_append, h, hp]
      simpa [add_new, hp] using ih (acc ++ [p]) this

/-- Anything already in the accumulator survives the loop. -/
theorem mem_add_new_left (l : List Nat) :
    ∀ acc x, x ∈ acc → x ∈ add_new acc l := by
  intro acc x hx
  obtain ⟨t, ht⟩ := add_new_eq_append l acc
  simp [ht, hx]

/-- Every processed element ends up in the result. -/
theorem mem_add_new_right (l : List Nat) :
    ∀ acc x, x ∈ l → x ∈ add_new acc l := by
  induction l with
  | nil => intro acc x hx; cases hx
  | cons p ps ih =>
    intro acc x hx
    rcases List.mem_cons.mp hx with h | h
    · subst h
      by_cases hp : x ∈ acc
      · simpa [add_new, hp] using mem_add_new_left ps acc x hp
      · have : x ∈ acc ++ [x] := by simp
        simpa [add_new, hp] using mem_add_new_left ps (acc ++ [x]) x this
    · by_cases hp : p ∈ acc <;> simpa [add_new, hp] using ih _ x h

/-- On an internally duplicate-free list the loop appends exactly the
elements not already present, in order. -/
theorem add_new_filter (l : List Nat) (hl : l.Nodup) :
    ∀ acc, add_new acc l = acc ++ l.filter (fun p => decide (p ∉ acc)) := by
  induction l with
  | nil => intro acc; simp [add_new]
  | cons p ps ih =>
    intro acc
    rcases List.nodup_cons.mp hl with ⟨hp_ps, hps⟩
    by_cases hp : p ∈ acc
    · have := ih hps acc
      simp [add_new, hp, this, List.filter_cons]
    · have heq : ps.filter (fun q => decide (q ∉ acc ++ [p]))
          = ps.filter (fun q => decide (q ∉ acc)) := by
        refine List.filter_congr ?_
        intro x hx
        have hxp : x ≠ p := fun h => hp_ps (h ▸ hx)
        rw [decide_eq_decide]
        simp [List.mem_append, hxp]
      have hstep : add_new acc (p :: ps) = add_new (acc ++ [p]) ps := by
        simp [add_new, hp]
      rw [hstep, ih hps (acc ++ [p]), heq, List.filter_cons]
      simp [hp]

/-- C3: the candidate port list equals the hinted port followed by the
vendor ports and then the generic ports with first occurrences kept
and later duplicates dropped; it never holds duplicates; and (for a
duplicate-free vendor port list, as every VENDOR_DB entry has) it is
literally the hinted port, then the vendor ports not already present,
then the generic ports not already present, order preserved. -/
theorem candidate_ports_shape_c3 (base_port : Nat) (vinfo : VendorInfo) :
    candidate_ports base_port vinfo
        = first_occ_dedup ([base_port] ++ vinfo.ports ++ genericInfo.ports)
      ∧ (candidate_ports base_port vinfo).Nodup
      ∧ (vinfo.ports.Nodup →
          candidate_ports base_port vinfo
            = [base_port]
                ++ vinfo.ports.filter (fun p => decide (p ∉ [base_port]))
                ++ genericInfo.ports.filter (fun p => decide
                    (p ∉ [base_port] ++ vinfo.ports.filter (fun q => decide (q ∉ [base_port]))))) := by
  refine ⟨?_, ?_, ?_⟩
  · unfold first_occ_dedup candidate_ports
    rw [add_new_append, add_new_append]
    rfl
  · exact add_new_nodup _ _ (add_new_nodup _ _ (by simp))
  · intro hnd
    unfold candidate_ports
    rw [add_new_filter vinfo.ports hnd [base_port],
      add_new_filter genericInfo.ports (by decide)]

/-- Witness for C3 at a concrete hinted port and vendor profile. -/
theorem candidate_ports_shape_c3_witness :
    (vendorLookup "foscam".toList).ports.Nodup
      ∧ candidate_ports 80 (vendorLookup "foscam".toList)
          = [80]
              ++ (vendorLookup "foscam".toList).ports.filter (fun p => decide (p ∉ [80]))
              ++ genericInfo.ports.filter (fun p => decide
                  (p ∉ [80] ++ (vendorLookup "foscam".toList).ports.filter
                    (fun q => decide (q ∉ [80])))) :=
  ⟨by decide, (candidate_ports_shape_c3 80 (vendorLookup "foscam".toList)).2.2 (by decide)⟩

/-- Dropping a prefix satisfying a predicate is idempotent. -/
theorem dropWhile_idem {α : Type} (f : α → Bool) (l : List α) :
    (l.dropWhile f).dropWhile f = l.dropWhile f := by
  induction l with
  | nil => rfl
  | cons c cs ih =>
    cases h : f c <;> simp [List.dropWhile, h, ih]

/-- After dropping the leading separators none remains at the front. -/
theorem dropWhile_slash_head (p : Str) :
    (p.dropWhile (fun c => c == '/')).head? ≠ some '/' := by
  induction p with
  | nil => simp
  | cons c cs ih =>
    cases h : (c == '/') with
    | false =>
      simp [List.dropWhile, h]
      intro hc
      subst hc
      simp at h
    | true => simpa [List.dropWhile, h] using ih

/-- Every path is its maximal run of leading separators followed by its
stripped remainder. -/
theorem path_split_slashes (p : Str) :
    ∃ k, p = List.replicate k '/' ++ p.dropWhile (fun c => c == '/') := by
  induction p with
  | nil => exact ⟨0, rfl⟩
  | cons c cs ih =>
    cases h : (c == '/')
    · exact ⟨0, by simp [List.dropWhile, h]⟩
    · obtain ⟨k, hk⟩ := ih
      have hc : c = '/' := by simpa using h
      subst hc
      exact ⟨k + 1, by simpa [List.dropWhile, List.replicate_succ] using hk⟩

/-- The decimal rendering loop produces only digits beyond its
accumulator; in particular it never emits an at-sign. -/
theorem natToStrCore_no_at (fuel : Nat) :
    ∀ n acc, '@' ∉ acc → '@' ∉ natToStrCore fuel n acc := by
  induction fuel with
  | zero => intro n acc h; simpa [natToStrCore] using h
  | succ fuel ih =>
    intro n acc h
    have hd : digitChar (n % 10) ≠ '@' := by
      have h10 : n % 10 < 10 := Nat.mod_lt _ (by omega)
      have : ∀ m : Nat, m < 10 → digitChar m ≠ '@' := by decide
      exact this _ h10
    by_cases hz : n / 10 = 0
    · simp [natToStrCore, hz, List.mem_cons]
      exact ⟨fun he => hd he.symm, h⟩
    · have hacc : '@' ∉ digitChar (n % 10) :: acc := by
        simp [List.mem_cons, h]
        exact fun he => hd he.symm
      simpa [natToStrCore, hz] using ih (n / 10) _ hacc

/-- The decimal rendering of a port holds no at-sign. -/
theorem natToStr_no_at (n : Nat) : '@' ∉ natToStr n :=
  natToStrCore_no_at (n + 1) n [] (by simp)

/-- A built URL is never the empty string. -/
theorem build_url_ne_nil (ip : Str) (port : Nat) (user pwd : Option Str) (p : Str) :
    build_url ip port user pwd p ≠ [] := by
  unfold build_url
  simp [String.toList]

/-- C5 counterexample: on the path "//x" the builder strips BOTH
leading separators, not exactly one as the claim states: the source
result differs from the one-separator-stripping reading of the spec. -/
theorem build_urls_strip_one_counterexample_c5 :
    build_urls "a".toList 1 none none ["//x".toList] = ["rtsp://a:1/x".toList]
      ∧ build_urls_spec_one_strip "a".toList 1 none none ["//x".toList]
          = ["rtsp://a:1//x".toList]
      ∧ (decide (build_urls "a".toList 1 none none ["//x".toList]
          = build_urls_spec_one_strip "a".toList 1 none none ["//x".toList]) = false) := by
  decide

/-- C5 (amended): the URL Builder strips ALL leading separators from a
path — the URL it builds for a path equals the one built for the
stripped path, the stripped remainder starts with no separator, the
original path is a run of separators followed by that remainder — and
a path that is empty (or all separators) yields a URL with no path
suffix at all. -/
theorem build_url_strip_all_c5 (ip : Str) (port : Nat) (user pwd : Option Str) (p : Str) :
    build_url ip port user pwd p
        = build_url ip port user pwd (p.dropWhile (fun c => c == '/'))
      ∧ (p.dropWhile (fun c => c == '/')).head? ≠ some '/'
      ∧ (∃ k, p = List.replicate k '/' ++ p.dropWhile (fun c => c == '/'))
      ∧ (p.dropWhile (fun c => c == '/') = [] →
          build_url ip port user pwd p = url_base ip port user pwd) := by
  refine ⟨?_, dropWhile_slash_head p, path_split_slashes p, ?_⟩
  · unfold build_url
    rw [dropWhile_idem]
  · intro hq
    unfold build_url url_base
    simp [hq]

/-- Witness for C5 at the concrete path "///". -/
theorem build_url_strip_all_c5_witness :
    ("///".toList.dropWhile (fun c => c == '/') = [])
      ∧ build_url "a".toList 554 none none "///".toList = url_base "a".toList 554 none none :=
  ⟨by decide, (build_url_strip_all_c5 "a".toList 554 none none "///".toList).2.2.2 (by decide)⟩

/-- C6 counterexample: with no credentials but a path holding an
at-sign, the built URL does contain an at-sign, against the claim's
unrestricted quantification over paths. -/
theorem build_urls_at_sign_counterexample_c6 :
    build_urls "a".toList 1 none none ["x@y".toList] = ["rtsp://a:1/x@y".toList]
      ∧ '@' ∈ "rtsp://a:1/x@y".toList := by
  decide

/-- C6 (amended): with no (truthy) credentials the URL contains an
at-sign exactly when the ip or the stripped path does — the builder
itself introduces none — and with a non-empty user the URL is exactly
scheme://user:password@ip:port[/path], the password defaulting to the
empty string when absent. -/
theorem build_url_creds_c6 (ip : Str) (port : Nat) (user pwd : Option Str) (p : Str) :
    (pyTruthy user = false →
        ('@' ∈ build_url ip port user pwd p ↔
          '@' ∈ ip ∨ '@' ∈ p.dropWhile (fun c => c == '/')))
      ∧ (∀ u : Str, user = some u → u ≠ [] →
          build_url ip port user pwd p
            = "rtsp://".toList ++ u ++ [':'] ++ pwd.getD [] ++ ['@'] ++ ip ++ [':']
                ++ natToStr port
                ++ (if (p.dropWhile (fun c => c == '/')).isEmpty then []
                    else '/' :: p.dropWhile (fun c => c == '/'))) := by
  constructor
  · intro hu
    have h1 : '@' ∉ "rtsp://".toList := by decide
    have h2 : '@' ∉ ([':'] : Str) := by decide
    have h3 := natToStr_no_at port
    by_cases hq : (p.dropWhile (fun c => c == '/')).isEmpty
    · have hq' : p.dropWhile (fun c => c == '/') = [] := by simpa using hq
      simp [build_url, authStr, hu, hq, hq', List.mem_append, h1, h2, h3]
    · simp [build_url, authStr, hu, hq, List.mem_append, h1, h2, h3]
  · intro u hu hne
    subst hu
    have hu' : u.isEmpty = false := by
      cases u with
      | nil => exact absurd rfl hne
      | cons a l => rfl
    simp [build_url, authStr, pyTruthy, hu']

/-- Witness for C6 at concrete inputs, with and without credentials. -/
theorem build_url_creds_c6_witness :
    pyTruthy none = false
      ∧ ('@' ∈ build_url "a".toList 1 none none "b".toList ↔
          '@' ∈ "a".toList ∨ '@' ∈ "b".toList.dropWhile (fun c => c == '/'))
      ∧ "u".toList ≠ []
      ∧ build_url "a".toList 1 (some "u".toList) (some "pw".toList) "b".toList
          = "rtsp://".toList ++ "u".toList ++ [':'] ++ (some "pw".toList).getD [] ++ ['@']
              ++ "a".toList ++ [':'] ++ natToStr 1
              ++ (if ("b".toList.dropWhile (fun c => c == '/')).isEmpty then []
                  else '/' :: "b".toList.dropWhile (fun c => c == '/')) :=
  ⟨rfl, (build_url_creds_c6 "a".toList 1 none none "b".toList).1 rfl, by decide,
    (build_url_creds_c6 "a".toList 1 (some "u".toList) (some "pw".toList) "b".toList).2
      "u".toList rfl (by decide)⟩

/-- The instrumented path loop computes the same first hit as the
source path loop. -/
theorem try_paths_t_fst (v : Str → Bool) (ip : Str) (u pw : Option Str) (port : Nat)
    (ps : List Str) :
    (try_paths_t v ip u pw port ps).1 = try_paths v ip u pw port ps := by
  induction ps with
  | nil => rfl
  | cons p ps ih =>
    by_cases hv : v (build_url ip port u pw p) <;>
      simp [try_paths_t, try_paths, hv, ih]

/-- The instrumented default-credential loop computes the same first
hit as the source loop. -/
theorem try_default_creds_t_fst (v : Str → Bool) (ip : Str) (port : Nat) (paths : List Str)
    (dl : List (Str × Str)) :
    (try_default_creds_t v ip port paths dl).1 = try_default_creds v ip port paths dl := by
  induction dl with
  | nil => rfl
  | cons d rest ih =>
    rcases d with ⟨u, pw⟩
    have hf := try_paths_t_fst v ip (some u) (some pw) port paths
    cases h : try_paths_t v ip (some u) (some pw) port paths with
    | mk o tr =>
      rw [h] at hf
      cases o with
      | some pr =>
        rcases pr with ⟨p, url⟩
        simp [try_default_creds_t, try_default_creds, h, ← hf]
      | none =>
        simp [try_default_creds_t, try_default_creds, h, ← hf, ih]

/-- The instrumented port loop computes the same first hit as the
source port loop. -/
theorem port_loop_t_fst (ping : Str → Nat → Bool) (v : Str → Bool) (tdf : Bool)
    (ip : Str) (u pw : Option Str) (paths : List Str) (dflts : List (Str × Str))
    (ports : List Nat) :
    (port_loop_t ping v tdf ip u pw paths dflts ports).1
      = port_loop ping v tdf ip u pw paths dflts ports := by
  induction ports with
  | nil => rfl
  | cons port rest ih =>
    by_cases hping : ping ip port
    · have hf := try_paths_t_fst v ip u pw port paths
      cases h : try_paths_t v ip u pw port paths with
      | mk o tr =>
        rw [h] at hf
        cases o with
        | some pr =>
          rcases pr with ⟨p, url⟩
          simp [port_loop_t, port_loop, hping, h, ← hf]
        | none =>
          cases tdf with
          | false => simp [port_loop_t, port_loop, hping, h, ← hf, ih]
          | true =>
            have hdf := try_default_creds_t_fst v ip port paths (dflts.take 3)
            cases hd : try_default_creds_t v ip port paths (dflts.take 3) with
            | mk od trd =>
              rw [hd] at hdf
              cases od with
              | some q =>
                rcases q with ⟨du, dpw, dp, durl⟩
                simp [port_loop_t, port_loop, hping, h, hd, ← hf, ← hdf]
              | none =>
                simp [port_loop_t, port_loop, hping, h, hd, ← hf, ← hdf, ih]
    · simp [port_loop_t, port_loop, hping, ih]

/-- The instrumented probe computes the same outcome as
smart_probe_single. -/
theorem smart_probe_t_fst (ping : Str → Nat → Bool) (v : Str → Bool)
    (fingerprint : Str → Nat → Headers) (tdf : Bool) (r : Row) :
    (smart_probe_t ping v fingerprint tdf r).1 = smart_probe_single ping v fingerprint tdf r := by
  have hf := port_loop_t_fst ping v tdf r.ip r.user r.pwd (probe_paths fingerprint r)
    (probe_vinfo fingerprint r).defaults (probe_ports fingerprint r)
  cases h : port_loop_t ping v tdf r.ip r.user r.pwd (probe_paths fingerprint r)
      (probe_vinfo fingerprint r).defaults (probe_ports fingerprint r) with
  | mk o tr =>
    rw [h] at hf
    cases o with
    | some hit => simp [smart_probe_t, smart_probe_single, h, ← hf]
    | none => simp [smart_probe_t, smart_probe_single, h, ← hf]

/-- A hit of the path loop is a path of the list whose built URL the
validator accepted. -/
theorem try_paths_some (v : Str → Bool) (ip : Str) (u pw : Option Str) (port : Nat)
    (ps : List Str) (p url : Str) :
    try_paths v ip u pw port ps = some (p, url) →
      url = build_url ip port u pw p ∧ v url = true ∧ p ∈ ps := by
  induction ps with
  | nil => intro h; cases h
  | cons q qs ih =>
    intro h
    by_cases hv : v (build_url ip port u pw q)
    · simp [try_paths, hv] at h
      rcases h with ⟨hq, hurl⟩
      subst hq
      subst hurl
      exact ⟨rfl, hv, by simp⟩
    · simp [try_paths, hv] at h
      obtain ⟨h1, h2, h3⟩ := ih h
      exact ⟨h1, h2, by simp [h3]⟩

/-- A hit of the default-credential loop is a validated URL built from
those default credentials. -/
theorem try_default_creds_some (v : Str → Bool) (ip : Str) (port : Nat) (paths : List Str)
    (dl : List (Str × Str)) (u pw p url : Str) :
    try_default_creds v ip port paths dl = some (u, pw, p, url) →
      url = build_url ip port (some u) (some pw) p ∧ v url = true ∧ p ∈ paths := by
  induction dl with
  | nil => intro h; cases h
  | cons d rest ih =>
    rcases d with ⟨u0, pw0⟩
    intro h
    cases ht : try_paths v ip (some u0) (some pw0) port paths with
    | some pr =>
      rcases pr with ⟨p0, url0⟩
      simp [try_default_creds, ht] at h
      rcases h with ⟨h1, h2, h3, h4⟩
      subst h1; subst h2; subst h3; subst h4
      obtain ⟨e1, e2, e3⟩ := try_paths_some v ip _ _ port paths _ _ ht
      exact ⟨e1, e2, e3⟩
    | none =>
      simp [try_default_creds, ht] at h
      exact ih h

/-- A hit of the port loop is a validated URL built from the hit's own
credentials, port and path. -/
theorem port_loop_some (ping : Str → Nat → Bool) (v : Str → Bool) (tdf : Bool)
    (ip : Str) (u pw : Option Str) (paths : List Str) (dflts : List (Str × Str))
    (ports : List Nat) (hit : Hit) :
    port_loop ping v tdf ip u pw paths dflts ports = some hit →
      hit.url = build_url ip hit.port hit.user hit.pwd hit.path ∧ v hit.url = true := by
  induction ports with
  | nil => intro h; cases h
  | cons port rest ih =>
    intro h
    by_cases hping : ping ip port
    · cases ht : try_paths v ip u pw port paths with
      | some pr =>
        rcases pr with ⟨p, url⟩
        simp [port_loop, hping, ht] at h
        obtain ⟨e1, e2, _⟩ := try_paths_some v ip u pw port paths p url ht
        subst h
        exact ⟨e1, e2⟩
      | none =>
        cases tdf with
        | false =>
          simp [port_loop, hping, ht] at h
          exact ih h
        | true =>
          cases hd : try_default_creds v ip port paths (dflts.take 3) with
          | some q =>
            rcases q with ⟨du, dpw, dp, durl⟩
            simp [port_loop, hping, ht, hd] at h
            obtain ⟨e1, e2, _⟩ := try_default_creds_some v ip port paths _ du dpw dp durl hd
            subst h
            exact ⟨e1, e2⟩
          | none =>
            simp [port_loop, hping, ht, hd] at h
            exact ih h
    · simp [port_loop, hping] at h
      exact ih h

/-- Running the validator over a concatenation that succeeds in its
first part stops there. -/
theorem run_candidates_append_some (v : Str → Bool) (ip : Str) (l1 l2 : List Attempt)
    (a : Attempt) (t : List Attempt) (h : run_candidates v ip l1 = (some a, t)) :
    run_candidates v ip (l1 ++ l2) = (some a, t) := by
  induction l1 generalizing t with
  | nil => cases h
  | cons b rest ih =>
    by_cases hv : v (attempt_url ip b)
    · simp [run_candidates, hv] at h ⊢
      exact h
    · simp only [run_candidates, if_neg hv] at h
      cases hr : run_candidates v ip rest with
      | mk o tr =>
        rw [hr] at h
        simp only [Prod.mk.injEq] at h
        obtain ⟨h1, h2⟩ := h
        subst h1
        subst h2
        simp [List.cons_append, run_candidates, if_neg hv, ih tr hr]

/-- Running the validator over a concatenation whose first part wholly
fails continues into the second part, trace appended. -/
theorem run_candidates_append_none (v : Str → Bool) (ip : Str) (l1 l2 : List Attempt)
    (t : List Attempt) (h : run_candidates v ip l1 = (none, t)) :
    run_candidates v ip (l1 ++ l2)
      = ((run_candidates v ip l2).1, t ++ (run_candidates v ip l2).2) := by
  induction l1 generalizing t with
  | nil =>
    simp [run_candidates] at h
    simp [h]
  | cons b rest ih =>
    by_cases hv : v (attempt_url ip b)
    · simp [run_candidates, hv] at h
    · simp only [run_candidates, if_neg hv] at h
      cases hr : run_candidates v ip rest with
      | mk o tr =>
        rw [hr] at h
        simp only [Prod.mk.injEq] at h
        obtain ⟨h1, h2⟩ := h
        subst h1
        subst h2
        simp [List.cons_append, run_candidates, if_neg hv, ih tr hr]

/-- Running the validator over the hinted-credential candidates of one
port is exactly the instrumented path loop. -/
theorem run_candidates_paths (v : Str → Bool) (ip : Str) (u pw : Option Str) (port : Nat)
    (paths : List Str) :
    run_candidates v ip (paths.map (fun p => (⟨u, pw, port, p⟩ : Attempt)))
      = ((try_paths_t v ip u pw port paths).1.map (fun pr => (⟨u, pw, port, pr.1⟩ : Attempt)),
         (try_paths_t v ip u pw port paths).2) := by
  induction paths with
  | nil => rfl
  | cons p ps ih =>
    by_cases hv : v (build_url ip port u pw p) <;>
      simp [run_candidates, try_paths_t, attempt_url, hv, ih]

/-- Running the validator over the default-credential candidates of one
port is exactly the instrumented default-credential loop. -/
theorem run_candidates_dflts (v : Str → Bool) (ip : Str) (port : Nat) (paths : List Str)
    (dl : List (Str × Str)) :
    run_candidates v ip
        (dl.flatMap (fun d => paths.map (fun p => (⟨some d.1, some d.2, port, p⟩ : Attempt))))
      = ((try_default_creds_t v ip port paths dl).1.map
           (fun q => (⟨some q.1, some q.2.1, port, q.2.2.1⟩ : Attempt)),
         (try_default_creds_t v ip port paths dl).2) := by
  induction dl with
  | nil => rfl
  | cons d rest ih =>
    rcases d with ⟨u, pw⟩
    have hp := run_candidates_paths v ip (some u) (some pw) port paths
    cases h : try_paths_t v ip (some u) (some pw) port paths with
    | mk o tr =>
      rw [h] at hp
      cases o with
      | some pr =>
        rcases pr with ⟨p, url⟩
        simp only [List.flatMap_cons]
        rw [run_candidates_append_some v ip _ _ _ _ hp]
        simp [try_default_creds_t, h]
      | none =>
        simp only [List.flatMap_cons]
        rw [run_candidates_append_none v ip _ _ _ hp, ih]
        simp [try_default_creds_t, h]

/-- Running the validator over the whole spec candidate space is
exactly the instrumented port loop: same first hit (up to the
hit/attempt correspondence) and same invocation trace. -/
theorem run_candidates_ports (ping : Str → Nat → Bool) (v : Str → Bool) (tdf : Bool)
    (ip : Str) (u pw : Option Str) (paths : List Str) (dflts : List (Str × Str))
    (ports : List Nat) :
    run_candidates v ip (spec_candidates ping tdf ip u pw paths dflts ports)
      = ((port_loop_t ping v tdf ip u pw paths dflts ports).1.map
           (fun h => (⟨h.user, h.pwd, h.port, h.path⟩ : Attempt)),
         (port_loop_t ping v tdf ip u pw paths dflts ports).2) := by
  induction ports with
  | nil => rfl
  | cons port rest ih =>
    by_cases hping : ping ip port
    · have hp := run_candidates_paths v ip u pw port paths
      cases h : try_paths_t v ip u pw port paths with
      | mk o tr =>
        rw [h] at hp
        cases o with
        | some pr =>
          rcases pr with ⟨p, url⟩
          have hcons : spec_candidates ping tdf ip u pw paths dflts (port :: rest)
              = paths.map (fun p => (⟨u, pw, port, p⟩ : Attempt))
                ++ ((if tdf then (dflts.take 3).flatMap
                      (fun d => paths.map fun p => (⟨some d.1, some d.2, port, p⟩ : Attempt))
                    else [])
                  ++ spec_candidates ping tdf ip u pw paths dflts rest) := by
            simp [spec_candidates, hping]
          rw [hcons, run_candidates_append_some v ip _ _ _ _ hp]
          simp [port_loop_t, hping, h]
        | none =>
          cases tdf with
          | false =>
            have hcons : spec_candidates ping false ip u pw paths dflts (port :: rest)
                = paths.map (fun p => (⟨u, pw, port, p⟩ : Attempt))
                  ++ spec_candidates ping false ip u pw paths dflts rest := by
              simp [spec_candidates, hping]
            rw [hcons, run_candidates_append_none v ip _ _ _ hp, ih]
            simp [port_loop_t, hping, h]
          | true =>
            have hd := run_candidates_dflts v ip port paths (dflts.take 3)
            cases hdc : try_default_creds_t v ip port paths (dflts.take 3) with
            | mk od trd =>
              rw [hdc] at hd
              have hcons : spec_candidates ping true ip u pw paths dflts (port :: rest)
                  = paths.map (fun p => (⟨u, pw, port, p⟩ : Attempt))
                    ++ ((dflts.take 3).flatMap
                          (fun d => paths.map fun p => (⟨some d.1, some d.2, port, p⟩ : Attempt))
                      ++ spec_candidates ping true ip u pw paths dflts rest) := by
                simp [spec_candidates, hping]
              cases od with
              | some q =>
                rcases q with ⟨du, dpw, dp, durl⟩
                rw [hcons, run_candidates_append_none v ip _ _ _ hp,
                  run_candidates_append_some v ip _ _ _ _ hd]
                simp [port_loop_t, hping, h, hdc]
              | none =>
                rw [hcons, run_candidates_append_none v ip _ _ _ hp,
                  run_candidates_append_none v ip _ _ _ hd, ih]
                simp [port_loop_t, hping, h, hdc, List.append_assoc]
    · have hcons : spec_candidates ping tdf ip u pw paths dflts (port :: rest)
          = spec_candidates ping tdf ip u pw paths dflts rest := by
        simp [spec_candidates, hping]
      rw [hcons, ih]
      simp [port_loop_t, hping]

/-- A predicate holding on every candidate holds on the validator
trace. -/
theorem run_candidates_all (v : Str → Bool) (ip : Str) (P : Attempt → Bool)
    (l : List Attempt) (h : l.all P = true) :
    (run_candidates v ip l).2.all P = true := by
  induction l with
  | nil => rfl
  | cons a rest ih =>
    simp only [List.all_cons, Bool.and_eq_true] at h
    by_cases hv : v (attempt_url ip a)
    · simp [run_candidates, hv, h.1]
    · simp [run_candidates, hv, h.1, ih h.2]

/-- Every spec candidate sits on a port the connectivity probe reported
reachable. -/
theorem spec_candidates_ping_all (ping : Str → Nat → Bool) (tdf : Bool) (ip : Str)
    (u pw : Option Str) (paths : List Str) (dflts : List (Str × Str)) (ports : List Nat) :
    (spec_candidates ping tdf ip u pw paths dflts ports).all (fun a => ping ip a.port) = true := by
  rw [List.all_eq_true]
  intro a ha
  rw [spec_candidates, List.mem_flatMap] at ha
  obtain ⟨port, _, hin⟩ := ha
  by_cases hp : ping ip port
  · rw [if_pos hp, List.mem_append] at hin
    rcases hin with hin | hin
    · obtain ⟨p, _, hpa⟩ := List.mem_map.mp hin
      subst hpa
      exact hp
    · cases tdf with
      | false => simp at hin
      | true =>
        have hin' : a ∈ (dflts.take 3).flatMap
            (fun d => paths.map fun p => (⟨some d.1, some d.2, port, p⟩ : Attempt)) := by
          simpa using hin
        rw [List.mem_flatMap] at hin'
        obtain ⟨d, _, hind⟩ := hin'
        obtain ⟨p, _, hpa⟩ := List.mem_map.mp hind
        subst hpa
        exact hp
  · rw [if_neg hp] at hin
    cases hin

/-- C1: one discovery run (a) computes, instrumented, the very outcome
of the source engine, (b) hands the validator exactly the candidates
the spec's ordered candidate space yields up to and including the
first accepted one, (c) returns on that first accepted candidate a
SUCCESS outcome carrying its URL, path, port and credentials (FAILED
when no candidate is accepted), and (d) never invokes the validator on
a port the Connectivity Probe reported unreachable — unreachable ports
contribute no candidates at all. -/
theorem discovery_run_c1 (ping : Str → Nat → Bool) (validate : Str → Bool)
    (fingerprint : Str → Nat → Headers) (tryDfl : Bool) (r : Row) :
    (smart_probe_t ping validate fingerprint tryDfl r).1
        = smart_probe_single ping validate fingerprint tryDfl r
      ∧ (smart_probe_t ping validate fingerprint tryDfl r).2
        = (spec_run ping validate fingerprint tryDfl r).2
      ∧ smart_probe_single ping validate fingerprint tryDfl r
        = outcome_of_spec fingerprint r (spec_run ping validate fingerprint tryDfl r).1
      ∧ (smart_probe_t ping validate fingerprint tryDfl r).2.all
          (fun a => ping r.ip a.port) = true := by
  have hrc := run_candidates_ports ping validate tryDfl r.ip r.user r.pwd
    (probe_paths fingerprint r) (probe_vinfo fingerprint r).defaults (probe_ports fingerprint r)
  have hfst := port_loop_t_fst ping validate tryDfl r.ip r.user r.pwd
    (probe_paths fingerprint r) (probe_vinfo fingerprint r).defaults (probe_ports fingerprint r)
  have hall := run_candidates_all validate r.ip (fun a => ping r.ip a.port) _
    (spec_candidates_ping_all ping tryDfl r.ip r.user r.pwd (probe_paths fingerprint r)
      (probe_vinfo fingerprint r).defaults (probe_ports fingerprint r))
  cases hplt : port_loop_t ping validate tryDfl r.ip r.user r.pwd (probe_paths fingerprint r)
      (probe_vinfo fingerprint r).defaults (probe_ports fingerprint r) with
  | mk o tr =>
    rw [hplt] at hrc hfst
    rw [hrc] at hall
    cases o with
    | some hit =>
      have hpl : port_loop ping validate tryDfl r.ip r.user r.pwd (probe_paths fingerprint r)
          (probe_vinfo fingerprint r).defaults (probe_ports fingerprint r) = some hit := hfst.symm
      obtain ⟨hurl, _⟩ := port_loop_some ping validate tryDfl r.ip r.user r.pwd
        (probe_paths fingerprint r) (probe_vinfo fingerprint r).defaults
        (probe_ports fingerprint r) hit hpl
      refine ⟨smart_probe_t_fst ping validate fingerprint tryDfl r, ?_, ?_, ?_⟩
      · simp [smart_probe_t, hplt, spec_run, hrc]
      · simp [smart_probe_single, hpl, outcome_of_spec, spec_run, hrc, attempt_url, hurl]
      · have htr : (smart_probe_t ping validate fingerprint tryDfl r).2 = tr := by
          simp [smart_probe_t, hplt]
        rw [htr]
        simpa using hall
    | none =>
      have hpl : port_loop ping validate tryDfl r.ip r.user r.pwd (probe_paths fingerprint r)
          (probe_vinfo fingerprint r).defaults (probe_ports fingerprint r) = none := hfst.symm
      refine ⟨smart_probe_t_fst ping validate fingerprint tryDfl r, ?_, ?_, ?_⟩
      · simp [smart_probe_t, hplt, spec_run, hrc]
      · simp [smart_probe_single, hpl, outcome_of_spec, spec_run, hrc]
      · have htr : (smart_probe_t ping validate fingerprint tryDfl r).2 = tr := by
          simp [smart_probe_t, hplt]
        rw [htr]
        simpa using hall

/-- The probe result fields are stored into the row unchanged. -/
theorem apply_outcome_status (r : Row) (o : Outcome) :
    (apply_outcome r o).status = o.status := by
  by_cases h1 : o.path.isEmpty <;> by_cases h2 : o.status = SUCCESS <;>
    simp [apply_outcome, h1, h2]

/-- The outcome url is stored into the row unchanged. -/
theorem apply_outcome_url (r : Row) (o : Outcome) :
    (apply_outcome r o).url = o.url := by
  by_cases h1 : o.path.isEmpty <;> by_cases h2 : o.status = SUCCESS <;>
    simp [apply_outcome, h1, h2]

/-- Applying an outcome never changes the row's ip. -/
theorem apply_outcome_ip (r : Row) (o : Outcome) :
    (apply_outcome r o).ip = r.ip := by
  by_cases h1 : o.path.isEmpty <;> by_cases h2 : o.status = SUCCESS <;>
    simp [apply_outcome, h1, h2]

/-- On SUCCESS the row port becomes the port that worked. -/
theorem apply_outcome_port_success (r : Row) (o : Outcome) (h : o.status = SUCCESS) :
    (apply_outcome r o).port = o.cport := by
  by_cases h1 : o.path.isEmpty <;> simp [apply_outcome, h1, h]

/-- A probe outcome in status SUCCESS carries a validator-accepted url. -/
theorem smart_probe_success_validate (ping : Str → Nat → Bool) (validate : Str → Bool)
    (fingerprint : Str → Nat → Headers) (tryDfl : Bool) (r : Row) :
    (smart_probe_single ping validate fingerprint tryDfl r).status = SUCCESS →
      validate (smart_probe_single ping validate fingerprint tryDfl r).url = true := by
  cases hpl : port_loop ping validate tryDfl r.ip r.user r.pwd (probe_paths fingerprint r)
      (probe_vinfo fingerprint r).defaults (probe_ports fingerprint r) with
  | some hit =>
    intro _
    obtain ⟨_, hval⟩ := port_loop_some ping validate tryDfl r.ip r.user r.pwd
      (probe_paths fingerprint r) (probe_vinfo fingerprint r).defaults
      (probe_ports fingerprint r) hit hpl
    simpa [smart_probe_single, hpl] using hval
  | none =>
    intro hc
    simp [smart_probe_single, hpl] at hc

/-- C4: after a discovery run is applied to a record, SUCCESS implies a
non-empty url built (by the URL Builder) for exactly the ip and port
stored in the record, and FAILED implies an empty url. -/
theorem record_invariant_c4 (ping : Str → Nat → Bool) (validate : Str → Bool)
    (fingerprint : Str → Nat → Headers) (tryDfl : Bool) (r : Row) :
    ((apply_outcome r (smart_probe_single ping validate fingerprint tryDfl r)).status = SUCCESS →
        (apply_outcome r (smart_probe_single ping validate fingerprint tryDfl r)).url ≠ []
          ∧ ∃ u pw p,
              (apply_outcome r (smart_probe_single ping validate fingerprint tryDfl r)).url
                = build_url
                    (apply_outcome r (smart_probe_single ping validate fingerprint tryDfl r)).ip
                    (apply_outcome r (smart_probe_single ping validate fingerprint tryDfl r)).port
                    u pw p)
      ∧ ((apply_outcome r (smart_probe_single ping validate fingerprint tryDfl r)).status = FAILED →
          (apply_outcome r (smart_probe_single ping validate fingerprint tryDfl r)).url = []) := by
  cases hpl : port_loop ping validate tryDfl r.ip r.user r.pwd (probe_paths fingerprint r)
      (probe_vinfo fingerprint r).defaults (probe_ports fingerprint r) with
  | some hit =>
    obtain ⟨hurl, _⟩ := port_loop_some ping validate tryDfl r.ip r.user r.pwd
      (probe_paths fingerprint r) (probe_vinfo fingerprint r).defaults
      (probe_ports fingerprint r) hit hpl
    have ho : smart_probe_single ping validate fingerprint tryDfl r
        = ⟨SUCCESS, hit.url, probe_vendor fingerprint r, hit.path, hit.user, hit.pwd, hit.port⟩ := by
      simp [smart_probe_single, hpl]
    rw [ho]
    constructor
    · intro _
      constructor
      · rw [apply_outcome_url]
        rw [hurl]
        exact build_url_ne_nil _ _ _ _ _
      · refine ⟨hit.user, hit.pwd, hit.path, ?_⟩
        rw [apply_outcome_url, apply_outcome_ip, apply_outcome_port_success _ _ rfl]
        exact hurl
    · intro hbad
      rw [apply_outcome_status] at hbad
      cases hbad
  | none =>
    have ho : smart_probe_single ping validate fingerprint tryDfl r
        = ⟨FAILED, [], probe_vendor fingerprint r, (probe_paths fingerprint r).headD [],
            r.user, r.pwd, probe_base_port r⟩ := by
      simp [smart_probe_single, hpl]
    rw [ho]
    constructor
    · intro hbad
      rw [apply_outcome_status] at hbad
      cases hbad
    · intro _
      rw [apply_outcome_url]

/-- Witness for C4: one concrete run that succeeds (port, url and
builder shape checked) and one that fails with an empty url. -/
theorem record_invariant_c4_witness :
    ((apply_outcome (register_camera none "a".toList 554 none none)
          (smart_probe_single (fun _ _ => true) (fun _ => true) (fun _ _ => []) false
            (register_camera none "a".toList 554 none none))).url ≠ []
        ∧ ∃ u pw p,
            (apply_outcome (register_camera none "a".toList 554 none none)
              (smart_probe_single (fun _ _ => true) (fun _ => true) (fun _ _ => []) false
                (register_camera none "a".toList 554 none none))).url
              = build_url
                  (apply_outcome (register_camera none "a".toList 554 none none)
                    (smart_probe_single (fun _ _ => true) (fun _ => true) (fun _ _ => []) false
                      (register_camera none "a".toList 554 none none))).ip
                  (apply_outcome (register_camera none "a".toList 554 none none)
                    (smart_probe_single (fun _ _ => true) (fun _ => true) (fun _ _ => []) false
                      (register_camera none "a".toList 554 none none))).port
                  u pw p)
      ∧ (apply_outcome (register_camera none "a".toList 554 none none)
          (smart_probe_single (fun _ _ => false) (fun _ => true) (fun _ _ => []) false
            (register_camera none "a".toList 554 none none))).url = [] :=
  ⟨(record_invariant_c4 (fun _ _ => true) (fun _ => true) (fun _ _ => []) false
      (register_camera none "a".toList 554 none none)).1 (by decide),
    (record_invariant_c4 (fun _ _ => false) (fun _ => true) (fun _ _ => []) false
      (register_camera none "a".toList 554 none none)).2 (by decide)⟩

/-- C9 counterexample: a cached path does NOT merely narrow which
candidates are tried first — it removes the remaining path candidates
from the run.  With a validator that accepts only the generic
candidate (port 554, path "live"), a cache-seeded record fails (its
run only ever attempts the cached path "p1") while an unseeded record
over the same oracles succeeds on that very candidate. -/
theorem cache_narrows_counterexample_c9 :
    (smart_probe_single (fun _ _ => true)
        (fun u => u == build_url "1.2.3.4".toList 554 none none "live".toList)
        (fun _ _ => []) false
        (register_camera (some ⟨"generic".toList, "p1".toList, none, none, 554⟩)
          "1.2.3.4".toList 554 none none)).status = FAILED
      ∧ (smart_probe_single (fun _ _ => true)
          (fun u => u == build_url "1.2.3.4".toList 554 none none "live".toList)
          (fun _ _ => []) false
          (register_camera none "1.2.3.4".toList 554 none none)).status = SUCCESS
      ∧ (smart_probe_t (fun _ _ => true)
          (fun u => u == build_url "1.2.3.4".toList 554 none none "live".toList)
          (fun _ _ => []) false
          (register_camera (some ⟨"generic".toList, "p1".toList, none, none, 554⟩)
            "1.2.3.4".toList 554 none none)).2.all (fun a => a.path == "p1".toList) = true := by
  decide

/-- C9 (amended): a cache hit seeds every starting hint of the record;
a later discovery run still goes through stream validation (SUCCESS
only ever carries a validator-accepted URL); the cached port only
determines which port is tried first while the vendor and generic
candidate ports all remain in the run's port list; but the cached path
replaces the auto path list, so that run attempts the cached path
only. -/
theorem cache_seeding_c9 (e : CacheEntry) (ip : Str) (uiPort : Nat)
    (uiUser uiPwd : Option Str) (ping : Str → Nat → Bool) (validate : Str → Bool)
    (fingerprint : Str → Nat → Headers) (tryDfl : Bool) :
    ((register_camera (some e) ip uiPort uiUser uiPwd).port = e.port
        ∧ (register_camera (some e) ip uiPort uiUser uiPwd).user = e.user
        ∧ (register_camera (some e) ip uiPort uiUser uiPwd).pwd = e.pwd
        ∧ (register_camera (some e) ip uiPort uiUser uiPwd).vendor = e.vendor
        ∧ (register_camera (some e) ip uiPort uiUser uiPwd).path = e.path
        ∧ (register_camera (some e) ip uiPort uiUser uiPwd).status = NEW
        ∧ (register_camera (some e) ip uiPort uiUser uiPwd).url = [])
      ∧ ((smart_probe_single ping validate fingerprint tryDfl
            (register_camera (some e) ip uiPort uiUser uiPwd)).status = SUCCESS →
          validate (smart_probe_single ping validate fingerprint tryDfl
            (register_camera (some e) ip uiPort uiUser uiPwd)).url = true)
      ∧ genericInfo.ports.all (fun p =>
          decide (p ∈ probe_ports fingerprint (register_camera (some e) ip uiPort uiUser uiPwd)))
          = true
      ∧ (probe_vinfo fingerprint (register_camera (some e) ip uiPort uiUser uiPwd)).ports.all
          (fun p =>
            decide (p ∈ probe_ports fingerprint (register_camera (some e) ip uiPort uiUser uiPwd)))
          = true
      ∧ (probe_ports fingerprint (register_camera (some e) ip uiPort uiUser uiPwd)).headD 0
          = probe_base_port (register_camera (some e) ip uiPort uiUser uiPwd)
      ∧ (e.path ≠ AUTO →
          probe_paths fingerprint (register_camera (some e) ip uiPort uiUser uiPwd)
            = [e.path]) := by
  refine ⟨⟨rfl, rfl, rfl, rfl, rfl, rfl, rfl⟩,
    smart_probe_success_validate ping validate fingerprint tryDfl _, ?_, ?_, ?_, ?_⟩
  · rw [List.all_eq_true]
    intro p hp
    rw [decide_eq_true_eq]
    exact mem_add_new_right _ _ _ hp
  · rw [List.all_eq_true]
    intro p hp
    rw [decide_eq_true_eq]
    exact mem_add_new_left _ _ _ (mem_add_new_right _ _ _ hp)
  · obtain ⟨t1, ht1⟩ := add_new_eq_append
      (probe_vinfo fingerprint (register_camera (some e) ip uiPort uiUser uiPwd)).ports
      [probe_base_port (register_camera (some e) ip uiPort uiUser uiPwd)]
    obtain ⟨t2, ht2⟩ := add_new_eq_append genericInfo.ports
      ([probe_base_port (register_camera (some e) ip uiPort uiUser uiPwd)] ++ t1)
    unfold probe_ports candidate_ports
    rw [ht1, ht2]
    simp
  · intro h
    have hpath : (register_camera (some e) ip uiPort uiUser uiPwd).path = e.path := rfl
    simp [probe_paths, hpath, h]

/-- Witness for C9 at a concrete cache entry and a validator that
accepts exactly the url of the cached configuration. -/
theorem cache_seeding_c9_witness :
    (smart_probe_single (fun _ _ => true)
        (fun u => u == build_url "a".toList 554 none none "p1".toList)
        (fun _ _ => []) false
        (register_camera (some ⟨"generic".toList, "p1".toList, none, none, 554⟩)
          "a".toList 554 none none)).status = SUCCESS
      ∧ ((smart_probe_single (fun _ _ => true)
            (fun u => u == build_url "a".toList 554 none none "p1".toList)
            (fun _ _ => []) false
            (register_camera (some ⟨"generic".toList, "p1".toList, none, none, 554⟩)
              "a".toList 554 none none)).url
          == build_url "a".toList 554 none none "p1".toList) = true
      ∧ ("p1".toList ≠ AUTO)
      ∧ probe_paths (fun _ _ => [])
          (register_camera (some ⟨"generic".toList, "p1".toList, none, none, 554⟩)
            "a".toList 554 none none) = ["p1".toList] :=
  ⟨by decide,
    (cache_seeding_c9 ⟨"generic".toList, "p1".toList, none, none, 554⟩ "a".toList 554
      none none (fun _ _ => true)
      (fun u => u == build_url "a".toList 554 none none "p1".toList)
      (fun _ _ => []) false).2.1 (by decide),
    by decide,
    (cache_seeding_c9 ⟨"generic".toList, "p1".toList, none, none, 554⟩ "a".toList 554
      none none (fun _ _ => true)
      (fun u => u == build_url "a".toList 554 none none "p1".toList)
      (fun _ _ => []) false).2.2.2.2.2 (by decide)⟩

end RTSP
